import Mathlib

/-!
Verification of the Dremio provisioning module (dremio-module.py).

The script is sequential HTTP plumbing around a few pure computations.
We embed the pure logic directly; network responses, files and parsed
YAML become explicit inputs (the external services are black boxes with
request/response contracts).  JSON values are modelled by the `Json`
type below; Python dictionaries become association lists, Python `None`
becomes `Option.none`, raised exceptions become `Except.error`.
-/

/-- A JSON value as handled by the script: null, strings, arrays, objects.
(The script only inspects these shapes; numbers and booleans never reach a
branch, so they are not needed for the embedded fragments.) -/
inductive Json where
  | null : Json
  | str : String → Json
  | arr : List Json → Json
  | obj : List (String × Json) → Json

/-- Python `d[k]` / `k in d` on a JSON object: field lookup, `none` when the
value is not an object or the key is absent. -/
def Json.get : Json → String → Option Json
  | .obj fs, k => fs.lookup k
  | _, _ => none

/-- Python truthiness of a JSON value (`if not credentials`, `if creds[k]`):
null, the empty string, the empty array and the empty object are falsy. -/
def Json.truthy : Json → Bool
  | .null => false
  | .str s => !s.isEmpty
  | .arr xs => !xs.isEmpty
  | .obj fs => !fs.isEmpty

/-- Extract a Python string from a JSON value. -/
def Json.asString : Json → Option String
  | .str s => some s
  | _ => none

/-- Extract a Python list of strings from a JSON value. -/
def Json.asStringList : Json → Option (List String)
  | .arr xs => xs.mapM Json.asString
  | _ => none

/-- Python `xs[i]` on a JSON array, `none` when out of range or not an array. -/
def Json.index : Json → Nat → Option Json
  | .arr xs, i => xs.get? i
  | _, _ => none

/-- An HTTP response as the script sees it: a status code and a parsed
JSON body (`response.status_code`, `response.json()`). -/
structure HttpResponse where
  status : Nat
  body : Json

/-- `vault_jwt_auth` (lines 22-35): POST to the vault auth endpoint; on
HTTP 200 return the parsed body, on any other status log and return `None`.
The response to that POST is the explicit input `authResponse`. -/
def vault_jwt_auth (authResponse : HttpResponse) : Option Json :=
  if authResponse.status = 200 then some authResponse.body else none

/-- `get_raw_secret_from_vault` (lines 37-65): authenticate; `None` when
auth fails or the auth body lacks `auth.client_token`; then GET the secret
(response `secretResponse`); on 200 with a `data` field return that field,
otherwise `None`. -/
def get_raw_secret_from_vault (authResponse secretResponse : HttpResponse) : Option Json :=
  match vault_jwt_auth authResponse with
  | none => none
  | some vaultAuthResponse =>
    match vaultAuthResponse.get "auth" with
    | none => none
    | some auth =>
      match auth.get "client_token" with
      | none => none
      | some _ =>
        if secretResponse.status = 200 then
          match secretResponse.body.get "data" with
          | some d => some d
          | none => none
        else none

/-- `get_credentials_from_vault` (lines 68-90): fetch the raw secret, then
validate.  Raises (`Except.error`) when the secret is falsy (`if not
credentials`), lacks `access_key` or `secret_key`, or either value is falsy;
otherwise returns the pair `(access_key, secret_key)`.  The jwt-file read and
the vault-address defaults (lines 70-76) only select which endpoints the two
HTTP requests hit, so here the two responses are the explicit inputs. -/
def get_credentials_from_vault (authResponse secretResponse : HttpResponse) :
    Except String (Json × Json) :=
  match get_raw_secret_from_vault authResponse secretResponse with
  | none => .error "Vault credentials are missing"
  | some credentials =>
    if credentials.truthy = false then .error "Vault credentials are missing"
    else
      match credentials.get "access_key" with
      | none => .error "Vault credentials are missing"
      | some access =>
        match credentials.get "secret_key" with
        | none => .error "Vault credentials are missing"
        | some secret =>
          if access.truthy && secret.truthy then .ok (access, secret)
          else .error "Vault credentials are missing"

/-- `get_policy_query` (lines 226-237): keep the columns of `col_names` not
occurring in `transformation_cols`; empty string when none survive, otherwise
the comma-joined projection built by the accumulation loop of lines 231-234. -/
def get_policy_query (transformation_cols : List String) (sql_path : String)
    (col_names : List String) : String :=
  let request_cols := col_names.filter (fun col => !(transformation_cols.contains col))
  match request_cols with
  | [] => ""
  | c :: rest =>
    let requested_cols_string := rest.foldl (fun acc col => acc ++ (", " ++ col)) c
    "select " ++ requested_cols_string ++ " from \"" ++ sql_path

/-- A dataset entry of the parsed YAML configuration, as `get_details_from_conf`
reads it.  `connection.s3` gives the endpoint and the vault coordinates; the
vault coordinates only select which endpoints the credential fetch hits, so the
two HTTP responses stand in for them.  `transformations` carries the JSON value
obtained from the base64+JSON library decode of the field (the stdlib decoders
are external black boxes, so the entry holds their output). -/
structure ConfEntry where
  name : String
  format : String
  endpoint_url : String
  authResponse : HttpResponse
  secretResponse : HttpResponse
  path : String
  transformations : Json

/-- The per-dataset record stored in `data_dict` (lines 108-109). -/
structure Descriptor where
  format : String
  endpoint_url : String
  path : String
  transformation : String
  transformation_cols : List String
  creds : Json × Json

/-- Python `s.split(sep)` for a one-character separator, over the character
list of the string (structural recursion, so concrete instances evaluate). -/
def split_on_char (sep : Char) : List Char → List (List Char)
  | [] => [[]]
  | c :: rest =>
    match split_on_char sep rest with
    | [] => [[]]
    | g :: gs => if c = sep then [] :: g :: gs else (c :: g) :: gs

/-- Does the pattern occur at the head of the character list? -/
def chars_begin : List Char → List Char → Bool
  | [], _ => true
  | _ :: _, [] => false
  | p :: ps, c :: cs => p == c && chars_begin ps cs

/-- Python `pat in s` on character lists: substring containment. -/
def chars_contain (pat : List Char) : List Char → Bool
  | [] => pat.isEmpty
  | c :: cs => chars_begin pat (c :: cs) || chars_contain pat cs

/-- The body of the inner loop of `get_details_from_conf` (lines 99-109) for
one entry: local name = second `/`-segment of the dataset id, credentials via
`get_credentials_from_vault`, transformation name = `name` field of element 0
of the decoded `transformations`, protected columns = `columns` field of the
same-named nested object of that element.  Python raises on a missing segment,
key or index; those become `Except.error`. -/
def process_entry (data : ConfEntry) : Except String (String × Descriptor) :=
  match ((split_on_char '/' data.name.data).map String.mk).get? 1 with
  | none => .error "IndexError"
  | some name =>
    match get_credentials_from_vault data.authResponse data.secretResponse with
    | .error msg => .error msg
    | .ok creds =>
      match data.transformations.index 0 with
      | none => .error "IndexError"
      | some first =>
        match (first.get "name").bind Json.asString with
        | none => .error "KeyError"
        | some transformation =>
          match (first.get transformation).bind (fun o => (o.get "columns").bind Json.asStringList) with
          | none => .error "KeyError"
          | some transformation_cols =>
            .ok (name, ⟨data.format, data.endpoint_url, data.path, transformation,
              transformation_cols, creds⟩)

/-- Python `"data" in key`: substring containment on the key. -/
def key_has_data (key : String) : Bool := chars_contain "data".data key.data

/-- The inner `for data in val` loop: process each entry in order, store its
descriptor in `data_dict` under the local name (newer bindings shadow older
ones: lookup finds the most recent), and remember the last bound `name`. -/
def process_entries : List ConfEntry → List (String × Descriptor) → Option String →
    Except String (List (String × Descriptor) × Option String)
  | [], dict, last => Except.ok (dict, last)
  | e :: rest, dict, last =>
    match process_entry e with
    | .error msg => .error msg
    | .ok (n, d) => process_entries rest ((n, d) :: dict) (some n)

/-- The outer `for key, val in content.items()` loop: only keys containing
the substring "data" contribute entries. -/
def process_content : List (String × List ConfEntry) → List (String × Descriptor) → Option String →
    Except String (List (String × Descriptor) × Option String)
  | [], dict, last => Except.ok (dict, last)
  | (key, val) :: rest, dict, last =>
    if key_has_data key then
      match process_entries val dict last with
      | .error msg => .error msg
      | .ok (dict2, last2) => process_content rest dict2 last2
    else process_content rest dict last

/-- `get_details_from_conf` (lines 92-110): run both loops over the parsed
YAML `content` starting from the empty global `data_dict`, then evaluate
`return data_dict[name]` — `name` is the leaked inner-loop variable, so if the
loop body never ran this is Python NameError, an unhandled exception. -/
def get_details_from_conf (content : List (String × List ConfEntry)) :
    Except String Descriptor :=
  match process_content content [] none with
  | .error msg => .error msg
  | .ok (dict, last) =>
    match last with
    | none => .error "NameError"
    | some name =>
      match dict.lookup name with
      | some d => .ok d
      | none => .error "KeyError"

/-- An observable step of `wait_dremio`: a TCP connect attempt, or a sleep of
a number of time units. -/
inductive Event where
  | attempt : Event
  | sleep : Nat → Event
deriving BEq, DecidableEq

/-- The `while count < 30` loop of `wait_dremio` (lines 141-150), recorded as
a trace: at each iteration one connect attempt (`connect` gives the outcome of
the attempt at the current `count`); on success `break`, on failure (the bare
`except`) sleep 10 units, increment `count` and continue. -/
def wait_dremio_go (connect : Nat → Bool) (count : Nat) : List Event :=
  if _h : count < 30 then
    Event.attempt ::
      (if connect count then []
       else Event.sleep 10 :: wait_dremio_go connect (count + 1))
  else []
termination_by 30 - count

/-- `wait_dremio` (lines 137-150): the loop from `count = 0`.  The bare
`except` swallows every connect failure, so the function always returns
normally; its behaviour is exactly the trace. -/
def wait_dremio (connect : Nat → Bool) : List Event :=
  wait_dremio_go connect 0

/-- Spec-side (§4.6/§8): the allowed columns are `allCols` filtered to exclude
any name present in `protectedCols`, preserving the order of `allCols`. -/
def spec_allowed_cols (protectedCols allCols : List String) : List String :=
  allCols.filter (fun c => decide (c ∉ protectedCols))

/-- Spec-side (§4.6): the comma-joined column list. -/
def spec_join_cols : List String → String
  | [] => ""
  | [c] => c
  | c :: c2 :: rest => c ++ ", " ++ spec_join_cols (c2 :: rest)

theorem spec_join_cols_append (a b : String) (l : List String) :
    spec_join_cols ((a ++ (", " ++ b)) :: l) = a ++ (", " ++ spec_join_cols (b :: l)) := by
  cases l with
  | nil => simp only [spec_join_cols, String.append_assoc]
  | cons y ys => simp only [spec_join_cols, String.append_assoc]

theorem foldl_comma_eq_spec_join (rest : List String) (c : String) :
    rest.foldl (fun acc col => acc ++ (", " ++ col)) c = spec_join_cols (c :: rest) := by
  induction rest generalizing c with
  | nil => rfl
  | cons x xs ih =>
    show xs.foldl (fun acc col => acc ++ (", " ++ col)) (c ++ (", " ++ x))
        = spec_join_cols (c :: x :: xs)
    rw [ih (c ++ (", " ++ x)), spec_join_cols_append]
    simp only [spec_join_cols, String.append_assoc]

theorem filter_not_contains_eq (t a : List String) :
    a.filter (fun c => !(t.contains c)) = spec_allowed_cols t a := by
  unfold spec_allowed_cols
  apply List.filter_congr
  intro c _
  simp [List.contains]

/-- C1: for every `allCols` and `protectedCols`, the column list appearing in
the output of `get_policy_query` is exactly `allCols` filtered to exclude any
name present in `protectedCols`, in the order of `allCols` (duplicates of
unprotected names kept): the output is empty exactly when that filtered list
is empty, and otherwise is the comma-join of that filtered list between the
query keywords. -/
theorem get_policy_query_allowed_cols (transformation_cols : List String)
    (sql_path : String) (col_names : List String) :
    (spec_allowed_cols transformation_cols col_names = [] →
      get_policy_query transformation_cols sql_path col_names = "") ∧
    (spec_allowed_cols transformation_cols col_names ≠ [] →
      get_policy_query transformation_cols sql_path col_names =
        "select " ++ (spec_join_cols (spec_allowed_cols transformation_cols col_names) ++
          (" from \"" ++ sql_path))) := by
  unfold get_policy_query
  rw [filter_not_contains_eq]
  constructor
  · intro h
    rw [h]
  · intro h
    match hm : spec_allowed_cols transformation_cols col_names with
    | [] => exact absurd hm h
    | c :: rest =>
      simp only [foldl_comma_eq_spec_join, String.append_assoc]

/-- Witness for C1 at a concrete input. -/
theorem get_policy_query_allowed_cols_witness :
    spec_allowed_cols ["ssn"] ["id", "name", "ssn"] ≠ [] ∧
    get_policy_query ["ssn"] "p" ["id", "name", "ssn"] =
      "select " ++ (spec_join_cols (spec_allowed_cols ["ssn"] ["id", "name", "ssn"]) ++
        (" from \"" ++ "p")) :=
  ⟨by decide, (get_policy_query_allowed_cols ["ssn"] "p" ["id", "name", "ssn"]).2 (by decide)⟩

/-- C3 counterexample: at the spec example input, `get_policy_query` does not
return the uppercase-keyword string the claim states (the source writes
`"select "` and `q from "q` in lowercase, lines 235). -/
theorem get_policy_query_example_uppercase_fails :
    get_policy_query ["ssn", "salary"] "src\".\"t" ["id", "name", "ssn", "salary"] ≠
      "SELECT id, name FROM \"src\".\"t" := by decide

/-- C3 (amended): at the spec example input, `get_policy_query` returns
`select id, name from "src"."t` — same column list, same asymmetric trailing
quote, but lowercase `select`/`from` keywords. -/
theorem get_policy_query_example :
    get_policy_query ["ssn", "salary"] "src\".\"t" ["id", "name", "ssn", "salary"] =
      "select id, name from \"src\".\"t" := by decide

/-- C5: when every name of `col_names` is present in `transformation_cols`
(in particular when the two lists are equal as sets), `get_policy_query`
returns the empty string. -/
theorem get_policy_query_all_protected (transformation_cols : List String)
    (sql_path : String) (col_names : List String)
    (h : ∀ c ∈ col_names, c ∈ transformation_cols) :
    get_policy_query transformation_cols sql_path col_names = "" := by
  have hnil : col_names.filter (fun col => !(transformation_cols.contains col)) = [] := by
    rw [List.filter_eq_nil_iff]
    intro c hc
    simp [List.contains]
    exact h c hc
  unfold get_policy_query
  rw [hnil]

/-- Witness for C5 at a concrete input. -/
theorem get_policy_query_all_protected_witness :
    (∀ c ∈ ["ssn", "salary"], c ∈ ["salary", "ssn"]) ∧
    get_policy_query ["salary", "ssn"] "src\".\"t" ["ssn", "salary"] = "" :=
  ⟨by decide, get_policy_query_all_protected ["salary", "ssn"] "src\".\"t" ["ssn", "salary"]
    (by decide)⟩

/-- C10: `get_policy_query` depends on `transformation_cols` only through set
membership: two protected lists with the same members (regardless of order or
duplicates) give the same query for every path and every column list. -/
theorem get_policy_query_set_membership (t1 t2 : List String)
    (h : ∀ c, c ∈ t1 ↔ c ∈ t2) (sql_path : String) (col_names : List String) :
    get_policy_query t1 sql_path col_names = get_policy_query t2 sql_path col_names := by
  unfold get_policy_query
  have hf : col_names.filter (fun col => !(t1.contains col)) =
      col_names.filter (fun col => !(t2.contains col)) := by
    apply List.filter_congr
    intro c _
    simp [List.contains, h c]
  rw [hf]

/-- Witness for C10 at a concrete input. -/
theorem get_policy_query_set_membership_witness :
    (∀ c, c ∈ ["ssn", "ssn", "salary"] ↔ c ∈ ["salary", "ssn"]) ∧
    get_policy_query ["ssn", "ssn", "salary"] "p" ["id", "ssn"] =
      get_policy_query ["salary", "ssn"] "p" ["id", "ssn"] :=
  ⟨by intro c; constructor <;> (intro hc; simp only [List.mem_cons, List.not_mem_nil] at hc ⊢; tauto),
   get_policy_query_set_membership ["ssn", "ssn", "salary"] ["salary", "ssn"]
     (by intro c; constructor <;> (intro hc; simp only [List.mem_cons, List.not_mem_nil] at hc ⊢; tauto))
     "p" ["id", "ssn"]⟩

theorem Json.get_some_truthy (c : Json) (k : String) (v : Json)
    (h : c.get k = some v) : c.truthy = true := by
  cases c with
  | null => simp [Json.get] at h
  | str s => simp [Json.get] at h
  | arr xs => simp [Json.get] at h
  | obj fs =>
    cases fs with
    | nil => simp [Json.get, List.lookup] at h
    | cons p rest => simp [Json.truthy, List.isEmpty]


theorem truthy_not_false {c : Json} (h : ¬ c.truthy = false) : c.truthy = true := by
  revert h
  cases c.truthy <;> simp


/-- C2: `get_credentials_from_vault` returns `Except.ok (access, secret)`
exactly when the resolved secret contains both an `access_key` and a
`secret_key` field with truthy (for strings: non-empty) values, the pair
being in (access_key, secret_key) order; in every other case — secret absent,
falsy/empty, a key missing, or a key falsy — it raises the missing-credentials
error. -/
theorem get_credentials_from_vault_spec (ar sr : HttpResponse) :
    (∀ access secret : Json,
      get_credentials_from_vault ar sr = Except.ok (access, secret) ↔
        ∃ c, get_raw_secret_from_vault ar sr = some c ∧
          c.get "access_key" = some access ∧ c.get "secret_key" = some secret ∧
          access.truthy = true ∧ secret.truthy = true) ∧
    ((∀ access secret : Json, ¬ ∃ c, get_raw_secret_from_vault ar sr = some c ∧
          c.get "access_key" = some access ∧ c.get "secret_key" = some secret ∧
          access.truthy = true ∧ secret.truthy = true) →
      get_credentials_from_vault ar sr = Except.error "Vault credentials are missing") := by
  have hmain : ∀ access secret : Json,
      get_credentials_from_vault ar sr = Except.ok (access, secret) ↔
        ∃ c, get_raw_secret_from_vault ar sr = some c ∧
          c.get "access_key" = some access ∧ c.get "secret_key" = some secret ∧
          access.truthy = true ∧ secret.truthy = true := by
    intro access secret
    unfold get_credentials_from_vault
    cases hr : get_raw_secret_from_vault ar sr with
    | none => simp
    | some c =>
      simp only [Option.some.injEq, exists_eq_left']
      cases htc : c.truthy with
      | false =>
        constructor
        · intro h; exact nomatch h
        · rintro ⟨hA, hS, hta, hts⟩
          have h2 := Json.get_some_truthy c "access_key" access hA
          rw [htc] at h2
          cases h2
      | true =>
        cases hA : c.get "access_key" with
        | none =>
          constructor
          · intro h; exact nomatch h
          · rintro ⟨hA2, hS2, hta, hts⟩
            cases hA2
        | some a =>
          cases hS : c.get "secret_key" with
          | none =>
            constructor
            · intro h; exact nomatch h
            · rintro ⟨hA2, hS2, hta, hts⟩
              cases hS2
          | some s =>
            constructor
            · intro h
              have h2 : (if (a.truthy && s.truthy) = true then Except.ok (a, s)
                  else Except.error "Vault credentials are missing" : Except String (Json × Json)) =
                  Except.ok (access, secret) := h
              cases hta : a.truthy with
              | false =>
                rw [hta] at h2
                exact nomatch h2
              | true =>
                cases hts : s.truthy with
                | false =>
                  rw [hta, hts] at h2
                  exact nomatch h2
                | true =>
                  rw [hta, hts] at h2
                  have h3 : (Except.ok (a, s) : Except String (Json × Json)) =
                      Except.ok (access, secret) := h2
                  cases h3
                  exact ⟨rfl, rfl, hta, hts⟩
            · rintro ⟨hA2, hS2, hta2, hts2⟩
              simp only [Option.some.injEq] at hA2 hS2
              subst hA2
              subst hS2
              have h2 : (if (a.truthy && s.truthy) = true then Except.ok (a, s)
                  else Except.error "Vault credentials are missing" : Except String (Json × Json)) =
                  Except.ok (a, s) := by
                rw [hta2, hts2]
                rfl
              exact h2
  refine ⟨hmain, ?_⟩
  intro hno
  cases hres : get_credentials_from_vault ar sr with
  | ok p =>
    exact absurd ((hmain p.1 p.2).mp (by rw [← hres])) (hno p.1 p.2)
  | error e =>
    rw [← hres]
    unfold get_credentials_from_vault
    cases hr : get_raw_secret_from_vault ar sr with
    | none => rfl
    | some c =>
      show (if c.truthy = false then Except.error "Vault credentials are missing"
          else match c.get "access_key" with
            | none => Except.error "Vault credentials are missing"
            | some access =>
              match c.get "secret_key" with
              | none => Except.error "Vault credentials are missing"
              | some secret =>
                if (access.truthy && secret.truthy) = true then Except.ok (access, secret)
                else Except.error "Vault credentials are missing") =
          Except.error "Vault credentials are missing"
      cases htc : c.truthy with
      | false => rfl
      | true =>
        cases hA : c.get "access_key" with
        | none => rfl
        | some a =>
          cases hS : c.get "secret_key" with
          | none => rfl
          | some s =>
            show (if (a.truthy && s.truthy) = true then Except.ok (a, s)
                else Except.error "Vault credentials are missing" : Except String (Json × Json)) =
                Except.error "Vault credentials are missing"
            cases hta : a.truthy with
            | false => rfl
            | true =>
              cases hts : s.truthy with
              | false => rfl
              | true =>
                exfalso
                exact hno a s ⟨c, hr, hA, hS, hta, hts⟩

/-- A vault auth response that succeeds, carrying `auth.client_token`. -/
def okAuthResponse : HttpResponse :=
  ⟨200, Json.obj [("auth", Json.obj [("client_token", Json.str "tok")])]⟩

/-- A vault secret response carrying a well-formed credential pair. -/
def okSecretResponse : HttpResponse :=
  ⟨200, Json.obj [("data",
    Json.obj [("access_key", Json.str "AK"), ("secret_key", Json.str "SK")])]⟩

/-- A failed vault auth response (HTTP 403). -/
def failAuthResponse : HttpResponse := ⟨403, Json.obj []⟩

/-- Witness for C2 at a concrete input: a well-formed secret yields the
(access_key, secret_key) pair. -/
theorem get_credentials_from_vault_spec_witness :
    get_credentials_from_vault okAuthResponse okSecretResponse =
      Except.ok (Json.str "AK", Json.str "SK") :=
  ((get_credentials_from_vault_spec okAuthResponse okSecretResponse).1
      (Json.str "AK") (Json.str "SK")).mpr
    ⟨Json.obj [("access_key", Json.str "AK"), ("secret_key", Json.str "SK")],
      rfl, rfl, rfl, rfl, rfl⟩

/-- C6: `get_raw_secret_from_vault` returns `none` whenever the auth step
returns `none` (any non-200 auth response); it returns `some d` exactly when
the auth response is 200 with an `auth.client_token` and the secret response
is 200 with a `data` field `d` — in every other case it returns `none`; and a
`none` result makes `get_credentials_from_vault` raise missing-credentials. -/
theorem get_raw_secret_from_vault_spec (ar sr : HttpResponse) :
    (vault_jwt_auth ar = none → get_raw_secret_from_vault ar sr = none) ∧
    (∀ d, get_raw_secret_from_vault ar sr = some d ↔
      (ar.status = 200 ∧
        (∃ auth, (ar.body).get "auth" = some auth ∧
          ∃ tok, auth.get "client_token" = some tok) ∧
        sr.status = 200 ∧ (sr.body).get "data" = some d)) ∧
    (get_raw_secret_from_vault ar sr = none →
      get_credentials_from_vault ar sr = Except.error "Vault credentials are missing") := by
  refine ⟨?_, ?_, ?_⟩
  · intro h
    unfold get_raw_secret_from_vault
    rw [h]
  · intro d
    unfold get_raw_secret_from_vault vault_jwt_auth
    by_cases hs : ar.status = 200
    · rw [if_pos hs]
      show (match (ar.body).get "auth" with
          | none => none
          | some auth =>
            match auth.get "client_token" with
            | none => none
            | some _ =>
              if sr.status = 200 then
                match (sr.body).get "data" with
                | some d2 => some d2
                | none => none
              else none) = some d ↔ _
      cases hA : (ar.body).get "auth" with
      | none =>
        constructor
        · intro h; exact nomatch h
        · rintro ⟨h1, ⟨auth, hAu, h3⟩, h4⟩
          cases hAu
      | some auth0 =>
        show (match auth0.get "client_token" with
            | none => none
            | some _ =>
              if sr.status = 200 then
                match (sr.body).get "data" with
                | some d2 => some d2
                | none => none
              else none) = some d ↔ _
        cases hT : auth0.get "client_token" with
        | none =>
          constructor
          · intro h; exact nomatch h
          · rintro ⟨h1, ⟨auth, hAu, tok, hTok⟩, h4⟩
            simp only [Option.some.injEq] at hAu
            subst hAu
            rw [hT] at hTok
            cases hTok
        | some tok0 =>
          show (if sr.status = 200 then
              match (sr.body).get "data" with
              | some d2 => some d2
              | none => none
            else none) = some d ↔ _
          by_cases hs2 : sr.status = 200
          · rw [if_pos hs2]
            cases hD : (sr.body).get "data" with
            | none =>
              constructor
              · intro h; exact nomatch h
              · rintro ⟨h1, h2, h3, hD2⟩
                cases hD2
            | some d0 =>
              constructor
              · intro h
                have h2 : some d0 = some d := h
                cases h2
                exact ⟨hs, ⟨auth0, rfl, tok0, hT⟩, hs2, rfl⟩
              · rintro ⟨h1, h2, h3, hD2⟩
                exact hD2
          · rw [if_neg hs2]
            constructor
            · intro h; exact nomatch h
            · rintro ⟨h1, h2, h3, h4⟩
              exact absurd h3 hs2
    · rw [if_neg hs]
      constructor
      · intro h; exact nomatch h
      · rintro ⟨h1, h2⟩
        exact absurd h1 hs
  · intro h
    unfold get_credentials_from_vault
    rw [h]

/-- Witness for C6 at a concrete input: an HTTP 403 auth response makes the
raw-secret fetch return `none` and the credential resolution raise. -/
theorem get_raw_secret_from_vault_spec_witness :
    get_raw_secret_from_vault failAuthResponse okSecretResponse = none ∧
    get_credentials_from_vault failAuthResponse okSecretResponse =
      Except.error "Vault credentials are missing" :=
  ⟨(get_raw_secret_from_vault_spec failAuthResponse okSecretResponse).1 rfl,
   (get_raw_secret_from_vault_spec failAuthResponse okSecretResponse).2.2
     ((get_raw_secret_from_vault_spec failAuthResponse okSecretResponse).1 rfl)⟩

theorem wait_dremio_go_spec (connect : Nat → Bool) (h : ∀ n, connect n = false) :
    ∀ (m k : Nat), k + m = 30 →
      wait_dremio_go connect k =
        List.join (List.replicate m [Event.attempt, Event.sleep 10]) := by
  intro m
  induction m with
  | zero =>
    intro k hk
    unfold wait_dremio_go
    rw [dif_neg (by omega)]
    rfl
  | succ m ih =>
    intro k hk
    unfold wait_dremio_go
    rw [dif_pos (by omega), h k, ih (k + 1) (by omega)]
    rfl

/-- C7: when every connect attempt fails, `wait_dremio` performs exactly 30
connect attempts, sleeping 10 time units after each failed attempt (so a
fixed 10-unit interval separates consecutive attempts), and returns normally
(the trace is total — the bare `except` swallows every failure). -/
theorem wait_dremio_always_fail (connect : Nat → Bool) (h : ∀ n, connect n = false) :
    wait_dremio connect = List.join (List.replicate 30 [Event.attempt, Event.sleep 10]) ∧
    (wait_dremio connect).count Event.attempt = 30 := by
  constructor
  · exact wait_dremio_go_spec connect h 30 0 (by omega)
  · show (wait_dremio_go connect 0).count Event.attempt = 30
    rw [wait_dremio_go_spec connect h 30 0 (by omega)]
    decide

/-- Witness for C7: the always-failing connect function. -/
theorem wait_dremio_always_fail_witness :
    wait_dremio (fun _ => false) =
      List.join (List.replicate 30 [Event.attempt, Event.sleep 10]) ∧
    (wait_dremio (fun _ => false)).count Event.attempt = 30 :=
  wait_dremio_always_fail (fun _ => false) (fun _ => rfl)

theorem Json.asString_eq_str (j : Json) (s : String) (h : j.asString = some s) :
    j = Json.str s := by
  cases j with
  | str s2 =>
    simp only [Json.asString, Option.some.injEq] at h
    rw [h]
  | null => simp [Json.asString] at h
  | arr xs => simp [Json.asString] at h
  | obj fs => simp [Json.asString] at h

theorem mapM_asString_eq_map (xs : List Json) :
    ∀ (cs : List String), xs.mapM Json.asString = some cs → xs = cs.map Json.str := by
  induction xs with
  | nil =>
    intro cs h
    simp only [List.mapM_nil, Option.pure_def, Option.some.injEq] at h
    rw [← h]
    rfl
  | cons x xt ih =>
    intro cs h
    rw [List.mapM_cons] at h
    simp only [Option.pure_def, Option.bind_eq_bind, Option.bind_eq_some] at h
    obtain ⟨c, hc, ct, hct, heq⟩ := h
    obtain rfl : c :: ct = cs := Option.some.inj heq
    rw [Json.asString_eq_str x c hc, ih ct hct]
    rfl

theorem Json.asStringList_eq_arr (j : Json) (cs : List String)
    (h : j.asStringList = some cs) : j = Json.arr (cs.map Json.str) := by
  cases j with
  | arr xs =>
    simp only [Json.asStringList] at h
    rw [mapM_asString_eq_map xs cs h]
  | null => simp [Json.asStringList] at h
  | str s => simp [Json.asStringList] at h
  | obj fs => simp [Json.asStringList] at h

/-- C8: whenever `process_entry` (the loop body of `get_details_from_conf`)
succeeds, the descriptor's transformation name is the `name` field of element 0
of the decoded `transformations` array, and its protected column list is the
`columns` field of the same-named nested object of that element. -/
theorem process_entry_transformation_fields (e : ConfEntry) (n : String) (d : Descriptor)
    (h : process_entry e = Except.ok (n, d)) :
    ∃ first tobj, e.transformations.index 0 = some first ∧
      first.get "name" = some (Json.str d.transformation) ∧
      first.get d.transformation = some tobj ∧
      tobj.get "columns" = some (Json.arr (d.transformation_cols.map Json.str)) := by
  unfold process_entry at h
  cases hn : ((split_on_char '/' e.name.data).map String.mk).get? 1 with
  | none => rw [hn] at h; exact nomatch h
  | some n0 =>
    rw [hn] at h
    cases hcred : get_credentials_from_vault e.authResponse e.secretResponse with
    | error msg => rw [hcred] at h; exact nomatch h
    | ok creds0 =>
      rw [hcred] at h
      cases hf : e.transformations.index 0 with
      | none => rw [hf] at h; exact nomatch h
      | some f0 =>
        rw [hf] at h
        have h4 : (match (f0.get "name").bind Json.asString with
            | none => (Except.error "KeyError" : Except String (String × Descriptor))
            | some transformation =>
              match (f0.get transformation).bind
                  (fun o => (o.get "columns").bind Json.asStringList) with
              | none => Except.error "KeyError"
              | some transformation_cols =>
                Except.ok (n0, ⟨e.format, e.endpoint_url, e.path, transformation,
                  transformation_cols, creds0⟩)) = Except.ok (n, d) := h
        cases ht : (f0.get "name").bind Json.asString with
        | none => rw [ht] at h4; exact nomatch h4
        | some t0 =>
          rw [ht] at h4
          have h5 : (match (f0.get t0).bind
                (fun o => (o.get "columns").bind Json.asStringList) with
              | none => (Except.error "KeyError" : Except String (String × Descriptor))
              | some transformation_cols =>
                Except.ok (n0, ⟨e.format, e.endpoint_url, e.path, t0,
                  transformation_cols, creds0⟩)) = Except.ok (n, d) := h4
          cases hcols : (f0.get t0).bind
              (fun o => (o.get "columns").bind Json.asStringList) with
          | none => rw [hcols] at h5; exact nomatch h5
          | some cols0 =>
            rw [hcols] at h5
            have h6 : Except.ok (n0, (⟨e.format, e.endpoint_url, e.path, t0, cols0,
                creds0⟩ : Descriptor)) = Except.ok (n, d) := h5
            cases h6
            obtain ⟨nameJ, hnj, hnjs⟩ := Option.bind_eq_some.mp ht
            obtain rfl := Json.asString_eq_str nameJ t0 hnjs
            obtain ⟨tobj, htobj, hcb⟩ := Option.bind_eq_some.mp hcols
            obtain ⟨colsJ, hcj, hcjs⟩ := Option.bind_eq_some.mp hcb
            obtain rfl := Json.asStringList_eq_arr colsJ cols0 hcjs
            exact ⟨f0, tobj, rfl, hnj, htobj, hcj⟩

/-- A decoded `transformations` value: one element naming a `redact`
transformation protecting two columns. -/
def sampleTransObj : Json :=
  Json.arr [Json.obj [("name", Json.str "redact"),
    ("redact", Json.obj [("columns", Json.arr [Json.str "ssn", Json.str "salary"])])]]

/-- A first well-formed config entry. -/
def sampleEntry : ConfEntry :=
  ⟨"fybrik-notebook-sample/data-csv", "csv", "http://s3.example:9090",
   okAuthResponse, okSecretResponse, "bucket/data.csv", sampleTransObj⟩

/-- A second well-formed config entry with a different local name. -/
def sampleEntry2 : ConfEntry :=
  ⟨"other/second-data", "parquet", "http://s3.example:9090",
   okAuthResponse, okSecretResponse, "bucket2/d", sampleTransObj⟩

/-- Witness for C8 at a concrete entry. -/
theorem process_entry_transformation_fields_witness :
    ∃ first tobj, sampleEntry.transformations.index 0 = some first ∧
      first.get "name" = some (Json.str "redact") ∧
      first.get "redact" = some tobj ∧
      tobj.get "columns" = some (Json.arr (["ssn", "salary"].map Json.str)) :=
  process_entry_transformation_fields sampleEntry "data-csv"
    ⟨"csv", "http://s3.example:9090", "bucket/data.csv", "redact", ["ssn", "salary"],
      (Json.str "AK", Json.str "SK")⟩ rfl

theorem process_entries_last :
    ∀ (entries : List ConfEntry) (h2 : entries ≠ []),
      entries.all (fun e => (process_entry e).isOk) = true →
      ∀ (dict : List (String × Descriptor)) (last : Option String),
        ∃ dict2 n0 d0, process_entry (entries.getLast h2) = Except.ok (n0, d0) ∧
          process_entries entries dict last = Except.ok (dict2, some n0) ∧
          dict2.lookup n0 = some d0 := by
  intro entries
  induction entries with
  | nil => intro h2; exact absurd rfl h2
  | cons e rest ih =>
    intro h2 h3 dict last
    rw [List.all_cons, Bool.and_eq_true] at h3
    obtain ⟨n, d, he⟩ : ∃ n d, process_entry e = Except.ok (n, d) := by
      cases hpe : process_entry e with
      | error m => rw [hpe] at h3; simp [Except.isOk, Except.toBool] at h3
      | ok p => exact ⟨p.1, p.2, rfl⟩
    cases rest with
    | nil =>
      refine ⟨(n, d) :: dict, n, d, he, ?_, ?_⟩
      · show process_entries [e] dict last = _
        unfold process_entries
        rw [he]
        rfl
      · simp [List.lookup]
    | cons e2 rest2 =>
      obtain ⟨dict2, n0, d0, hlast, hpes, hlook⟩ :=
        ih (List.cons_ne_nil e2 rest2) h3.2 ((n, d) :: dict) (some n)
      refine ⟨dict2, n0, d0, hlast, ?_, hlook⟩
      show process_entries (e :: e2 :: rest2) dict last = _
      unfold process_entries
      rw [he]
      exact hpes

/-- C4: with several dataset entries under one "data"-containing key (all of
which process successfully), `get_details_from_conf` returns exactly the
descriptor of the last-parsed entry; earlier descriptors are not part of the
returned value. -/
theorem get_details_from_conf_last (key : String) (entries : List ConfEntry)
    (h1 : key_has_data key = true) (h2 : entries ≠ [])
    (h3 : entries.all (fun e => (process_entry e).isOk) = true) :
    get_details_from_conf [(key, entries)] =
      (process_entry (entries.getLast h2)).map (fun p => p.2) := by
  obtain ⟨dict2, n0, d0, hlast, hpes, hlook⟩ := process_entries_last entries h2 h3 [] none
  unfold get_details_from_conf
  have hpc : process_content [(key, entries)] [] none = Except.ok (dict2, some n0) := by
    unfold process_content
    rw [if_pos h1, hpes]
    rfl
  rw [hpc]
  show (match dict2.lookup n0 with
      | some d => Except.ok d
      | none => (Except.error "KeyError" : Except String Descriptor)) = _
  rw [hlook, hlast]
  rfl

/-- Witness for C4 at a concrete two-entry configuration: only the second
entry's descriptor is returned. -/
theorem get_details_from_conf_last_witness :
    key_has_data "data" = true ∧
    get_details_from_conf [("data", [sampleEntry, sampleEntry2])] =
      Except.ok ⟨"parquet", "http://s3.example:9090", "bucket2/d", "redact",
        ["ssn", "salary"], (Json.str "AK", Json.str "SK")⟩ :=
  ⟨rfl, get_details_from_conf_last "data" [sampleEntry, sampleEntry2] rfl
    (List.cons_ne_nil _ _) rfl⟩

theorem process_content_no_data :
    ∀ (content : List (String × List ConfEntry)),
      content.all (fun kv => !(key_has_data kv.1) || kv.2.isEmpty) = true →
      ∀ (dict : List (String × Descriptor)),
        process_content content dict none = Except.ok (dict, none) := by
  intro content
  induction content with
  | nil => intro h dict; rfl
  | cons kv rest ih =>
    intro h dict
    rw [List.all_cons, Bool.and_eq_true] at h
    obtain ⟨hkv, hrest⟩ := h
    obtain ⟨key, val⟩ := kv
    unfold process_content
    by_cases hk : key_has_data key = true
    · rw [if_pos hk]
      have hv : val = [] := by
        rw [hk] at hkv
        simpa [List.isEmpty_iff] using hkv
      subst hv
      show process_content rest dict none = Except.ok (dict, none)
      exact ih hrest dict
    · rw [if_neg hk]
      exact ih hrest dict

/-- C9: when no top-level key contains the substring "data", or every such
key maps to an empty entry list, `get_details_from_conf` does not return an
empty mapping or a default: the final `return data_dict[name]` references the
never-bound loop variable `name` and the call terminates with an unhandled
NameError (modelled as `Except.error "NameError"`). -/
theorem get_details_from_conf_no_data (content : List (String × List ConfEntry))
    (h : content.all (fun kv => !(key_has_data kv.1) || kv.2.isEmpty) = true) :
    get_details_from_conf content = Except.error "NameError" := by
  unfold get_details_from_conf
  rw [process_content_no_data content h []]

/-- Witness for C9: one "data"-containing key with an empty list and one
unrelated key. -/
theorem get_details_from_conf_no_data_witness :
    ([("metadata", []), ("other", [sampleEntry])] :
        List (String × List ConfEntry)).all
      (fun kv => !(key_has_data kv.1) || kv.2.isEmpty) = true ∧
    get_details_from_conf [("metadata", []), ("other", [sampleEntry])] =
      Except.error "NameError" :=
  ⟨rfl, get_details_from_conf_no_data [("metadata", []), ("other", [sampleEntry])] rfl⟩
